import Mathlib

/-
Shallow embedding of the fileupload repository (package fileupload,
src/fileupload.go) together with the pieces of the Go standard library it
relies on: crypto/sha256, encoding/hex, encoding/base64, path.Clean /
path.Join / path.Ext, strings.HasPrefix / TrimPrefix / ReplaceAll,
filepath.IsAbs / filepath.Abs, and an explicit-state model of the os
filesystem calls (Stat, MkdirAll, Remove, Create) plus io.Copy.

Go strings and byte slices are modelled as List Char and List Nat
(bytes, each < 256).  Machine integers are Nat / Int; 32-bit overflow in
SHA-256 is made explicit with mod 2 ^ 32.
-/

set_option autoImplicit false
set_option maxRecDepth 100000

namespace Fileupload

/-- Go string, modelled as a list of characters. -/
abbrev GoStr := List Char

/-- Byte-slice literal helper: the ASCII bytes of a Lean string literal. -/
def bytes (s : String) : List Nat := s.data.map Char.toNat

/-- Go conversion string(b) for an ASCII byte slice. -/
def bytesToStr (b : List Nat) : GoStr := b.map Char.ofNat

/-! ## SHA-256 (crypto/sha256, FIPS 180-4) over byte lists -/

/-- Truncation to a 32-bit word. -/
def w32 (n : Nat) : Nat := n % 4294967296

/-- 32-bit modular addition. -/
def add32 (a b : Nat) : Nat := (a + b) % 4294967296

/-- Right rotation of a 32-bit word by n bits. -/
def rotr32 (x n : Nat) : Nat := w32 (x / 2 ^ n + x % 2 ^ n * 2 ^ (32 - n))

/-- Logical right shift of a 32-bit word. -/
def shr32 (x n : Nat) : Nat := x / 2 ^ n

/-- Three-way xor. -/
def xor3 (a b c : Nat) : Nat := Nat.xor (Nat.xor a b) c

/-- SHA-256 Ch function; the complement of x is x xor 0xffffffff. -/
def ch32 (x y z : Nat) : Nat := Nat.xor (Nat.land x y) (Nat.land (Nat.xor x 4294967295) z)

/-- SHA-256 Maj function. -/
def maj32 (x y z : Nat) : Nat := xor3 (Nat.land x y) (Nat.land x z) (Nat.land y z)

/-- SHA-256 Sigma0. -/
def bigSigma0 (x : Nat) : Nat := xor3 (rotr32 x 2) (rotr32 x 13) (rotr32 x 22)

/-- SHA-256 Sigma1. -/
def bigSigma1 (x : Nat) : Nat := xor3 (rotr32 x 6) (rotr32 x 11) (rotr32 x 25)

/-- SHA-256 sigma0. -/
def smallSigma0 (x : Nat) : Nat := xor3 (rotr32 x 7) (rotr32 x 18) (shr32 x 3)

/-- SHA-256 sigma1. -/
def smallSigma1 (x : Nat) : Nat := xor3 (rotr32 x 17) (rotr32 x 19) (shr32 x 10)

/-- The 64 SHA-256 round constants of FIPS 180-4, written in decimal. -/
def k256 : List Nat :=
  [1116352408, 1899447441, 3049323471, 3921009573,
   961987163, 1508970993, 2453635748, 2870763221,
   3624381080, 310598401, 607225278, 1426881987,
   1925078388, 2162078206, 2614888103, 3248222580,
   3835390401, 4022224774, 264347078, 604807628,
   770255983, 1249150122, 1555081692, 1996064986,
   2554220882, 2821834349, 2952996808, 3210313671,
   3336571891, 3584528711, 113926993, 338241895,
   666307205, 773529912, 1294757372, 1396182291,
   1695183700, 1986661051, 2177026350, 2456956037,
   2730485921, 2820302411, 3259730800, 3345764771,
   3516065817, 3600352804, 4094571909, 275423344,
   430227734, 506948616, 659060556, 883997877,
   958139571, 1322822218, 1537002063, 1747873779,
   1955562222, 2024104815, 2227730452, 2361852424,
   2428436474, 2756734187, 3204031479, 3329325298]

/-- The eight SHA-256 working registers / hash state. -/
structure H8 where
  a : Nat
  b : Nat
  c : Nat
  d : Nat
  e : Nat
  f : Nat
  g : Nat
  h : Nat
deriving DecidableEq

/-- SHA-256 initial hash value of FIPS 180-4, written in decimal. -/
def initH8 : H8 :=
  ⟨1779033703, 3144134277, 1013904242, 2773480762,
   1359893119, 2600822924, 528734635, 1541459225⟩

/-- Merkle-Damgard padding: 0x80, zeros to 56 mod 64, 8-byte big-endian bit length. -/
def sha256Pad (msg : List Nat) : List Nat :=
  let bl := 8 * msg.length
  let z := (119 - msg.length % 64) % 64
  msg ++ 128 :: List.replicate z 0 ++
    [bl / 2 ^ 56 % 256, bl / 2 ^ 48 % 256, bl / 2 ^ 40 % 256, bl / 2 ^ 32 % 256,
     bl / 2 ^ 24 % 256, bl / 2 ^ 16 % 256, bl / 2 ^ 8 % 256, bl % 256]

/-- Split a byte list into chunks of 64, with fuel bounded by the length. -/
def chunksAux : Nat → List Nat → List (List Nat)
  | 0, _ => []
  | _ + 1, [] => []
  | fuel + 1, l => l.take 64 :: chunksAux fuel (l.drop 64)

/-- Split a byte list into 64-byte blocks. -/
def chunks64 (l : List Nat) : List (List Nat) := chunksAux l.length l

/-- Big-endian 32-bit words from bytes. -/
def toWords : List Nat → List Nat
  | b0 :: b1 :: b2 :: b3 :: rest => (((b0 * 256 + b1) * 256 + b2) * 256 + b3) :: toWords rest
  | _ => []

/-- Extend the 16-word message schedule by n further words. -/
def extendW (w : List Nat) : Nat → List Nat
  | 0 => w
  | n + 1 =>
    let v := extendW w n
    let l := v.length
    v ++ [add32 (add32 (smallSigma1 (v.getD (l - 2) 0)) (v.getD (l - 7) 0))
            (add32 (smallSigma0 (v.getD (l - 15) 0)) (v.getD (l - 16) 0))]

/-- One SHA-256 round on the working registers. -/
def roundStep (st : H8) (ki wi : Nat) : H8 :=
  let t1 := add32 (add32 (add32 st.h (bigSigma1 st.e)) (add32 (ch32 st.e st.f st.g) ki)) wi
  let t2 := add32 (bigSigma0 st.a) (maj32 st.a st.b st.c)
  ⟨add32 t1 t2, st.a, st.b, st.c, add32 st.d t1, st.e, st.f, st.g⟩

/-- Compress one 64-byte block into the hash state. -/
def compressBlock (st : H8) (block : List Nat) : H8 :=
  let w := extendW (toWords block) 48
  let r := (k256.zip w).foldl (fun s kw => roundStep s kw.1 kw.2) st
  ⟨add32 st.a r.a, add32 st.b r.b, add32 st.c r.c, add32 st.d r.d,
   add32 st.e r.e, add32 st.f r.f, add32 st.g r.g, add32 st.h r.h⟩

/-- Big-endian bytes of a 32-bit word. -/
def wordBytes (w : Nat) : List Nat :=
  [w / 2 ^ 24 % 256, w / 2 ^ 16 % 256, w / 2 ^ 8 % 256, w % 256]

/-- SHA-256 digest (32 bytes) of a byte list. -/
def sha256Bytes (msg : List Nat) : List Nat :=
  let fin := (chunks64 (sha256Pad msg)).foldl compressBlock initH8
  wordBytes fin.a ++ wordBytes fin.b ++ wordBytes fin.c ++ wordBytes fin.d ++
  wordBytes fin.e ++ wordBytes fin.f ++ wordBytes fin.g ++ wordBytes fin.h

/-! ## encoding/hex EncodeToString -/

/-- Lower-case hex digit for a nibble: 0-9 then a-f. -/
def hexChar (n : Nat) : Char :=
  if n < 10 then Char.ofNat (48 + n) else Char.ofNat (87 + n)

/-- hex.EncodeToString: two lower-case hex digits per byte. -/
def hexEncode : List Nat → GoStr
  | [] => []
  | b :: rest => hexChar (b / 16 % 16) :: hexChar (b % 16) :: hexEncode rest

/-- Storage.sha256Reader (line 282-288): hex-encoded SHA-256 of the bytes read. -/
def sha256hex (msg : List Nat) : GoStr := hexEncode (sha256Bytes msg)

/-! ## path.Clean / path.Join / path.Ext and the strings helpers -/

/-- Split a character list on the slash separator. -/
def splitSlashAux : List Char → List Char → List GoStr
  | [], cur => [cur.reverse]
  | '/' :: rest, cur => cur.reverse :: splitSlashAux rest []
  | c :: rest, cur => splitSlashAux rest (c :: cur)

/-- All slash-separated segments of a path (empty segments included). -/
def splitSlash (p : GoStr) : List GoStr := splitSlashAux p []

/-- Segment-stack form of the lazybuf loop inside Go path.Clean: empty and
dot segments are dropped, dotdot pops the stack unless the stack is empty
(rooted paths drop it, unrooted paths accumulate it) or its head is itself
a dotdot. -/
def cleanSegs (rooted : Bool) : List GoStr → List GoStr → List GoStr
  | [], acc => acc
  | s :: rest, acc =>
    if s = [] ∨ s = ['.'] then cleanSegs rooted rest acc
    else if s = ['.', '.'] then
      match acc with
      | [] => if rooted then cleanSegs rooted rest [] else cleanSegs rooted rest [['.', '.']]
      | a :: tl => if a = ['.', '.'] then cleanSegs rooted rest (s :: a :: tl)
                   else cleanSegs rooted rest tl
    else cleanSegs rooted rest (s :: acc)

/-- Go path.Clean. -/
def goPathClean (p : GoStr) : GoStr :=
  if p = [] then ['.']
  else
    let rooted := p.head? = some '/'
    let out := (cleanSegs rooted (splitSlash p) []).reverse
    if rooted then '/' :: List.intercalate ['/'] out
    else if out = [] then ['.']
    else List.intercalate ['/'] out

/-- Go path.Join: drop empty elements, join with slashes, then Clean; all
elements empty gives the empty string. -/
def goPathJoin (elems : List GoStr) : GoStr :=
  let nz := elems.filter (fun e => !e.isEmpty)
  if nz.isEmpty then [] else goPathClean (List.intercalate ['/'] nz)

/-- Go path.Ext: the suffix starting at the final dot of the final
slash-separated element, empty if that element has no dot. -/
def goPathExt (p : GoStr) : GoStr :=
  let seg := p.reverse.takeWhile (fun c => c ≠ '/')
  if seg.any (fun c => c = '.') then ((seg.takeWhile (fun c => c ≠ '.')) ++ ['.']).reverse
  else []

/-- Go strings.HasPrefix. -/
def goHasPre (s pfx : GoStr) : Bool := pfx.isPrefixOf s

/-- Go strings.TrimPrefix. -/
def goTrimPre (s pfx : GoStr) : GoStr := if goHasPre s pfx then s.drop pfx.length else s

/-- Go strings.ReplaceAll for a single-character pattern and replacement. -/
def replaceAllChar (s : GoStr) (a b : Char) : GoStr :=
  s.map (fun c => if c = a then b else c)

/-- Go filepath.IsAbs on a slash-separated (unix) host. -/
def goFilepathIsAbs (p : GoStr) : Bool := goHasPre p ['/']

/-- Go filepath.Abs for a non-absolute path: join with the working directory. -/
def goFilepathAbs (cwd p : GoStr) : GoStr :=
  if goFilepathIsAbs p then goPathClean p else goPathJoin [cwd, p]

/-- Go filepath.Dir restricted to what the model needs: everything before
the final slash, cleaned; a path without a slash has directory dot. -/
def parentPath (p : GoStr) : GoStr :=
  let r := p.reverse.dropWhile (fun c => c ≠ '/')
  if r.isEmpty then ['.'] else goPathClean r.reverse

/-! ## encoding/base64 StdEncoding.DecodeString -/

/-- Value of a standard-alphabet base64 byte. -/
def b64Val (b : Nat) : Option Nat :=
  if 65 ≤ b ∧ b ≤ 90 then some (b - 65)
  else if 97 ≤ b ∧ b ≤ 122 then some (b - 97 + 26)
  else if 48 ≤ b ∧ b ≤ 57 then some (b - 48 + 52)
  else if b = 43 then some 62
  else if b = 47 then some 63
  else none

/-- Decode base64 quartets; 61 is the padding byte. Padding is only legal
at the end of the input, in the last one or two positions of a quartet. -/
def decodeQuads : List Nat → Except GoStr (List Nat)
  | [] => .ok []
  | a :: b :: c :: d :: rest =>
    match b64Val a, b64Val b with
    | some va, some vb =>
      if d = 61 then
        if !rest.isEmpty then .error "illegal base64 data".data
        else if c = 61 then .ok [va * 4 + vb / 16]
        else
          match b64Val c with
          | some vc => .ok [va * 4 + vb / 16, vb % 16 * 16 + vc / 4]
          | none => .error "illegal base64 data".data
      else
        match b64Val c, b64Val d with
        | some vc, some vd =>
          (decodeQuads rest).map
            (fun tail => (va * 4 + vb / 16) :: (vb % 16 * 16 + vc / 4) :: (vc % 4 * 64 + vd) :: tail)
        | _, _ => .error "illegal base64 data".data
    | _, _ => .error "illegal base64 data".data
  | _ => .error "illegal base64 data".data

/-- Go base64.StdEncoding.DecodeString: carriage returns and newlines are
ignored, everything else must be standard-alphabet quartets with padding. -/
def base64StdDecode (input : List Nat) : Except GoStr (List Nat) :=
  decodeQuads (input.filter (fun b => b ≠ 10 ∧ b ≠ 13))

/-! ## The anchored regular expression regexpImageBase64 (line 180) -/

/-- Word byte for the regexp class backslash-w. -/
def isWordByte (b : Nat) : Bool :=
  (48 ≤ b ∧ b ≤ 57) ∨ (65 ≤ b ∧ b ≤ 90) ∨ (97 ≤ b ∧ b ≤ 122) ∨ b = 95

/-- Whitespace byte for the regexp class backslash-s (tab, newline, form
feed, carriage return, space). -/
def isSpaceByte (b : Nat) : Bool := b = 9 ∨ b = 10 ∨ b = 12 ∨ b = 13 ∨ b = 32

/-- Byte-level prefix stripping. -/
def stripPreBytes (pfx s : List Nat) : Option (List Nat) :=
  if pfx.isPrefixOf s then some (s.drop pfx.length) else none

/-- Match of the anchored pattern data colon, optional spaces, image slash,
captured word subtype, semicolon base64 comma, captured dot-star payload
(the dot stops at a newline byte).  Returns the two capture groups.  The
greedy submatches of the Go regexp agree with this maximal-munch parse
because a semicolon is not a word byte and the literal after the space
class starts with a non-space byte. -/
def parseImageBase64 (c : List Nat) : Option (List Nat × List Nat) :=
  (stripPreBytes (bytes "data:") c).bind fun r1 =>
  let r2 := r1.dropWhile isSpaceByte
  (stripPreBytes (bytes "image/") r2).bind fun r3 =>
  let sub := r3.takeWhile isWordByte
  if sub.isEmpty then none
  else
    (stripPreBytes (bytes ";base64,") (r3.drop sub.length)).map fun r4 =>
      (sub, r4.takeWhile (fun b => b ≠ 10))

/-! ## Explicit-state model of the filesystem calls used by fileupload.go

Entries are an association list from canonical (absolute, cleaned) path
strings to entries; the working directory resolves relative paths, as the
kernel would for the Go process.  Insertion is normalising (the old
binding is filtered out), so that states reached along different
operation orders compare with plain equality. -/

/-- A directory entry: a regular file with its content bytes, or a
directory.  Stat on a directory reports the conventional block size 4096;
the repository only ever compares sizes after checking IsDir, so the
constant never influences control flow on directories. -/
inductive FsEntry where
  | file (content : List Nat)
  | dir
deriving DecidableEq

instance instDecEqExcept {ε α : Type} [DecidableEq ε] [DecidableEq α] :
    DecidableEq (Except ε α) := fun
  | .error a, .error b =>
    if h : a = b then .isTrue (by rw [h]) else .isFalse (fun hc => by cases hc; exact h rfl)
  | .error _, .ok _ => .isFalse (fun hc => by cases hc)
  | .ok _, .error _ => .isFalse (fun hc => by cases hc)
  | .ok a, .ok b =>
    if h : a = b then .isTrue (by rw [h]) else .isFalse (fun hc => by cases hc; exact h rfl)

/-- Stat size: byte count for files, block size for directories. -/
def FsEntry.statSize : FsEntry → Int
  | .file c => (c.length : Int)
  | .dir => 4096

/-- Stat IsDir. -/
def FsEntry.isDir : FsEntry → Bool
  | .file _ => false
  | .dir => true

/-- Filesystem state: canonical-path association list plus the working
directory of the process. -/
structure FS where
  entries : List (GoStr × FsEntry)
  cwd : GoStr
deriving DecidableEq

/-- Canonical key of a path: absolute paths are cleaned, relative paths
are resolved against the working directory. -/
def normPath (cwd p : GoStr) : GoStr :=
  if goFilepathIsAbs p then goPathClean p else goPathJoin [cwd, p]

/-- Lookup by canonical key. -/
def FS.lookupKey (fs : FS) (key : GoStr) : Option FsEntry :=
  (fs.entries.find? (fun kv => decide (kv.1 = key))).map (fun kv => kv.2)

/-- os.Stat: lookup by path. -/
def FS.stat (fs : FS) (p : GoStr) : Option FsEntry := fs.lookupKey (normPath fs.cwd p)

/-- Normalising insertion by canonical key. -/
def FS.insertKey (fs : FS) (key : GoStr) (e : FsEntry) : FS :=
  ⟨(key, e) :: fs.entries.filter (fun kv => decide (kv.1 ≠ key)), fs.cwd⟩

/-- Deletion by canonical key. -/
def FS.eraseKey (fs : FS) (key : GoStr) : FS :=
  ⟨fs.entries.filter (fun kv => decide (kv.1 ≠ key)), fs.cwd⟩

/-- A canonical key that may serve as the parent of a new entry: the root,
or an existing directory. -/
def FS.dirExistsKey (fs : FS) (key : GoStr) : Bool :=
  key = ['/'] ∨ fs.lookupKey key = some .dir

/-- os.Remove: delete the named entry, error when it does not exist. -/
def FS.remove (fs : FS) (p : GoStr) : Except GoStr FS :=
  let key := normPath fs.cwd p
  match fs.lookupKey key with
  | some _ => .ok (fs.eraseKey key)
  | none => .error "remove: no such file or directory".data

/-- os.Create: truncating create; fails on a directory or when the parent
directory does not exist. -/
def FS.createFile (fs : FS) (p : GoStr) : Except GoStr FS :=
  let key := normPath fs.cwd p
  match fs.lookupKey key with
  | some .dir => .error "create: is a directory".data
  | _ =>
    if fs.dirExistsKey (parentPath key) then .ok (fs.insertKey key (.file []))
    else .error "create: no such file or directory".data

/-- io.Copy of a full byte list into a freshly truncated file. -/
def FS.writeFile (fs : FS) (p : GoStr) (content : List Nat) : FS :=
  fs.insertKey (normPath fs.cwd p) (.file content)

/-- Create every directory of a chain in order, skipping the root and
existing directories; an existing regular file is an error. -/
def FS.mkdirList (fs : FS) : List GoStr → Except GoStr FS
  | [] => .ok fs
  | q :: rest =>
    if q = ['/'] then fs.mkdirList rest
    else
      match fs.lookupKey q with
      | some .dir => fs.mkdirList rest
      | some (.file _) => .error "mkdir: not a directory".data
      | none => (fs.insertKey q .dir).mkdirList rest

/-- Chain of ancestors of a canonical path, outermost first, with fuel
bounded by the length of the path. -/
def dirChainAux : Nat → GoStr → List GoStr
  | 0, p => [p]
  | fuel + 1, p =>
    let par := parentPath p
    if par = p ∨ par = ['.'] then [p] else dirChainAux fuel par ++ [p]

/-- Chain of ancestors of a canonical path, outermost first. -/
def dirChain (p : GoStr) : List GoStr := dirChainAux p.length p

/-- os.MkdirAll: create the directory and all missing ancestors. -/
def FS.mkdirAll (fs : FS) (p : GoStr) : Except GoStr FS :=
  fs.mkdirList (dirChain (normPath fs.cwd p))

/-! ## The fileupload package itself (src/fileupload.go) -/

/-- Storage (lines 21-24): process-wide defaults. -/
structure Storage where
  storageDirectory : GoStr
  uriAccessPrefix : GoStr

/-- FileStorage (lines 48-53): per-request parameters. -/
structure FileStorage where
  StorageDirectory : GoStr
  UriAccessPrefix : GoStr
  StorageSubDirectory : GoStr

/-- FileStorageResult (lines 55-68).  Uid, Bucket and Category are never
assigned by the package and keep their zero values. -/
structure FileStorageResult where
  Uid : Int := 0
  Size : Int := 0
  Bucket : GoStr := []
  Category : GoStr := []
  Name : GoStr := []
  Hash : GoStr := []
  FileExt : GoStr := []
  PathAbs : GoStr := []
  PathRlt : GoStr := []
  PathUri : GoStr := []
  OriginName : GoStr := []
deriving DecidableEq

/-- multipart.FileHeader as used by the package: declared filename, the
Size field set by the multipart parser, and the content bytes the opened
stream yields. -/
structure MultipartFileHeader where
  Filename : GoStr
  Size : Int
  content : List Nat

/-- Path bookkeeping shared verbatim by multipartCopy (lines 96-117 and
127-139) and base64Copy (lines 200-242). -/
structure ResolvedPaths where
  storageDirectory : GoStr
  pathUri : GoStr
  pathRlt : GoStr
  pathAbs : GoStr

/-- Lines 96-117 and 127-139 of both copy routines: pick the effective
storage directory and uri prefix, join the sub directory, derive the
relative, absolute and uri paths, force the uri to start with a slash and
replace any non-slash host path separator.  sep is os.PathSeparator and
cwd the working directory used by filepath.Abs. -/
def buildPaths (sep : Char) (cwd : GoStr) (s : Storage) (param : FileStorage) (name : GoStr) :
    ResolvedPaths :=
  let storageDirectory0 := if param.StorageDirectory ≠ [] then param.StorageDirectory
                           else s.storageDirectory
  let saveDirectory := storageDirectory0
  let pathUri0 := name
  let storageDirectory := if param.StorageSubDirectory ≠ [] then
                            goPathJoin [storageDirectory0, param.StorageSubDirectory]
                          else storageDirectory0
  let pathUri1 := if param.StorageSubDirectory ≠ [] then
                    goPathJoin [param.StorageSubDirectory, pathUri0]
                  else pathUri0
  let pathRlt0 := goPathJoin [storageDirectory, name]
  let pathAbs := if goFilepathIsAbs pathRlt0 then pathRlt0 else goFilepathAbs cwd pathRlt0
  let pathRlt := if goFilepathIsAbs pathRlt0 then goTrimPre pathRlt0 saveDirectory else pathRlt0
  let uriAccessPrefix := if param.UriAccessPrefix ≠ [] then param.UriAccessPrefix
                         else s.uriAccessPrefix
  let pathUri2 := if uriAccessPrefix ≠ [] then goPathJoin [uriAccessPrefix, pathUri1] else pathUri1
  let pathUri3 := if !goHasPre pathUri2 ['/'] then '/' :: pathUri2 else pathUri2
  let pathUri := if sep ≠ '/' then replaceAllChar pathUri3 sep '/' else pathUri3
  ⟨storageDirectory, pathUri, pathRlt, pathAbs⟩

/-- Lines 119-125 of both copy routines: when Stat on the destination
fails with not-exist, MkdirAll the storage directory. -/
def mkdirStep (fs : FS) (storageDirectory pathAbs : GoStr) : Except GoStr FS :=
  match fs.stat pathAbs with
  | none => fs.mkdirAll storageDirectory
  | some _ => .ok fs

/-- Lines 141-147 of multipartCopy: remove a pre-existing destination
exactly when its stat size equals the new Size and it is not a directory. -/
def multipartRemoveExisting (fs : FS) (pathAbs : GoStr) (size : Int) : Except GoStr FS :=
  match fs.stat pathAbs with
  | some st => if st.statSize = size ∧ !st.isDir then fs.remove pathAbs else .ok fs
  | none => .ok fs

/-- Lines 244-250 of base64Copy: remove a pre-existing destination
whenever it is not a directory, regardless of size. -/
def base64RemoveExisting (fs : FS) (pathAbs : GoStr) : Except GoStr FS :=
  match fs.stat pathAbs with
  | some st => if !st.isDir then fs.remove pathAbs else .ok fs
  | none => .ok fs

/-- Storage.multipartCopy (lines 70-160).  The opened stream is the
content of the header, hashing consumes it and Seek rewinds it, so the
bytes hashed are exactly the bytes later copied to the destination.  The
second component is the filesystem after the call, also on error. -/
def Storage.multipartCopy (sep : Char) (s : Storage) (param : FileStorage)
    (file : MultipartFileHeader) (fs : FS) : Except GoStr FileStorageResult × FS :=
  let hash := sha256hex file.content
  let fileExt := goPathExt file.Filename
  let name := hash ++ fileExt
  let pp := buildPaths sep fs.cwd s param name
  match mkdirStep fs pp.storageDirectory pp.pathAbs with
  | .error e => (.error e, fs)
  | .ok fsA =>
    match multipartRemoveExisting fsA pp.pathAbs file.Size with
    | .error e => (.error e, fsA)
    | .ok fsB =>
      match fsB.createFile pp.pathAbs with
      | .error e => (.error e, fsB)
      | .ok fsC =>
        (.ok { Size := file.Size, OriginName := file.Filename, Hash := hash,
               FileExt := fileExt, Name := name, PathAbs := pp.pathAbs,
               PathRlt := pp.pathRlt, PathUri := pp.pathUri },
         fsC.writeFile pp.pathAbs file.content)

/-- Storage.base64Copy (lines 182-263).  The hash is computed over the
entire raw input (line 194) while the decoded payload bytes are what is
written to the destination (line 258); Size and OriginName are never
assigned and keep their zero values. -/
def Storage.base64Copy (sep : Char) (s : Storage) (param : FileStorage)
    (content : List Nat) (fs : FS) : Except GoStr FileStorageResult × FS :=
  match parseImageBase64 content with
  | none => (.error "illegal image base64 value".data, fs)
  | some (subtype, payload) =>
    match base64StdDecode payload with
    | .error e => (.error e, fs)
    | .ok imageContent =>
      let fileExt := '.' :: bytesToStr subtype
      let hash := sha256hex content
      let name := hash ++ fileExt
      let pp := buildPaths sep fs.cwd s param name
      match mkdirStep fs pp.storageDirectory pp.pathAbs with
      | .error e => (.error e, fs)
      | .ok fsA =>
        match base64RemoveExisting fsA pp.pathAbs with
        | .error e => (.error e, fsA)
        | .ok fsB =>
          match fsB.createFile pp.pathAbs with
          | .error e => (.error e, fsB)
          | .ok fsC =>
            (.ok { Hash := hash, FileExt := fileExt, Name := name, PathAbs := pp.pathAbs,
                   PathRlt := pp.pathRlt, PathUri := pp.pathUri },
             fsC.writeFile pp.pathAbs imageContent)

/-- Loop of Storage.MultipartCopy (lines 163-178) with the accumulated
succeeded slice; nil headers are skipped and the first error stops the
loop, returning the slice accumulated so far together with the error. -/
def Storage.multipartCopyLoop (sep : Char) (s : Storage) (param : FileStorage) :
    List (Option MultipartFileHeader) → FS → List FileStorageResult →
    (List FileStorageResult × Option GoStr) × FS
  | [], fs, acc => ((acc, none), fs)
  | none :: rest, fs, acc => Storage.multipartCopyLoop sep s param rest fs acc
  | some f :: rest, fs, acc =>
    match Storage.multipartCopy sep s param f fs with
    | (.error e, fs1) => ((acc, some e), fs1)
    | (.ok r, fs1) => Storage.multipartCopyLoop sep s param rest fs1 (acc ++ [r])

/-- Storage.MultipartCopy (lines 163-178): both named results, the
succeeded slice and the error, are returned to the caller. -/
def Storage.MultipartCopy (sep : Char) (s : Storage) (param : FileStorage)
    (files : List (Option MultipartFileHeader)) (fs : FS) :
    (List FileStorageResult × Option GoStr) × FS :=
  Storage.multipartCopyLoop sep s param files fs []

/-- Loop of Storage.Base64Copy (lines 266-280), same shape as the
multipart loop. -/
def Storage.base64CopyLoop (sep : Char) (s : Storage) (param : FileStorage) :
    List (Option (List Nat)) → FS → List FileStorageResult →
    (List FileStorageResult × Option GoStr) × FS
  | [], fs, acc => ((acc, none), fs)
  | none :: rest, fs, acc => Storage.base64CopyLoop sep s param rest fs acc
  | some c :: rest, fs, acc =>
    match Storage.base64Copy sep s param c fs with
    | (.error e, fs1) => ((acc, some e), fs1)
    | (.ok r, fs1) => Storage.base64CopyLoop sep s param rest fs1 (acc ++ [r])

/-- Storage.Base64Copy (lines 266-280). -/
def Storage.Base64Copy (sep : Char) (s : Storage) (param : FileStorage)
    (files : List (Option (List Nat))) (fs : FS) :
    (List FileStorageResult × Option GoStr) × FS :=
  Storage.base64CopyLoop sep s param files fs []

/-! ## fmt.Sprintf zero-padded decimals and SubDirectoryDate (lines 340-344) -/

/-- Decimal digit character. -/
def digitChar (k : Nat) : Char := Char.ofNat (48 + k)

/-- Decimal digits of a natural number, most significant first, with fuel. -/
def natDecAux : Nat → Nat → GoStr → GoStr
  | 0, _, acc => acc
  | fuel + 1, n, acc =>
    if n < 10 then digitChar n :: acc
    else natDecAux fuel (n / 10) (digitChar (n % 10) :: acc)

/-- Decimal representation of a natural number. -/
def natDec (n : Nat) : GoStr := natDecAux (n + 1) n []

/-- fmt.Sprintf with verb percent-zero-w-d for a non-negative argument:
the decimal digits, left padded with zeros to width w. -/
def goSprintf0 (w n : Nat) : GoStr := List.replicate (w - (natDec n).length) '0' ++ natDec n

/-- Storage.SubDirectoryDate (lines 340-344).  time.Now is modelled by
passing the wall-clock year, month number and day as arguments; the Go
code formats them with percent-04d and percent-02d and path.Joins them
after the given sub directory. -/
def Storage.SubDirectoryDate (_s : Storage) (subDirectory : GoStr) (year month day : Nat) :
    GoStr :=
  goPathJoin [subDirectory, goSprintf0 4 year, goSprintf0 2 month, goSprintf0 2 day]

/-! ## Helper lemmas: hex encoding and digest shape -/

/-- Lower-case hexadecimal digit. -/
def isLowerHex (c : Char) : Prop := ('0' ≤ c ∧ c ≤ '9') ∨ ('a' ≤ c ∧ c ≤ 'f')

instance (c : Char) : Decidable (isLowerHex c) := by unfold isLowerHex; infer_instance

theorem hexChar_lowerHex : ∀ n < 16, isLowerHex (hexChar n) := by decide

theorem mem_hexEncode_lowerHex (bs : List Nat) (c : Char) (hc : c ∈ hexEncode bs) :
    isLowerHex c := by
  induction bs with
  | nil => simp [hexEncode] at hc
  | cons b rest ih =>
    simp only [hexEncode, List.mem_cons] at hc
    rcases hc with rfl | rfl | hc
    · exact hexChar_lowerHex _ (Nat.mod_lt _ (by norm_num))
    · exact hexChar_lowerHex _ (Nat.mod_lt _ (by norm_num))
    · exact ih hc

theorem hexEncode_length (bs : List Nat) : (hexEncode bs).length = 2 * bs.length := by
  induction bs with
  | nil => rfl
  | cons b rest ih => simp [hexEncode, ih]; ring

theorem sha256Bytes_length (msg : List Nat) : (sha256Bytes msg).length = 32 := by
  simp [sha256Bytes, wordBytes]

theorem sha256hex_length (msg : List Nat) : (sha256hex msg).length = 64 := by
  simp [sha256hex, hexEncode_length, sha256Bytes_length]

theorem sha256hex_lowerHex (msg : List Nat) (c : Char) (hc : c ∈ sha256hex msg) :
    isLowerHex c := mem_hexEncode_lowerHex _ _ hc

/-! ## Helper lemmas: association-list filesystem algebra -/

theorem find?_filter_of_imp {α : Type} (p q : α → Bool) (h : ∀ x, p x = true → q x = true) :
    ∀ l : List α, List.find? p (l.filter q) = List.find? p l := by
  intro l
  induction l with
  | nil => rfl
  | cons a tl ih =>
    by_cases hq : q a = true
    · by_cases hp : p a = true
      · simp [List.filter, hq, List.find?, hp]
      · simp only [List.filter, hq, List.find?]
        simp only [Bool.not_eq_true] at hp
        simp [hp, ih]
    · have hp : p a = false := by
        cases h' : p a
        · rfl
        · exact absurd (h a h') hq
      simp only [Bool.not_eq_true] at hq
      simp [List.filter, hq, List.find?, hp, ih]

theorem filter_idem {α : Type} (p : α → Bool) (l : List α) :
    (l.filter p).filter p = l.filter p := by
  induction l with
  | nil => rfl
  | cons a tl ih =>
    by_cases hp : p a = true
    · simp [List.filter, hp, ih]
    · simp only [Bool.not_eq_true] at hp
      simp [List.filter, hp, ih]

theorem FS.lookupKey_insertKey_self (fs : FS) (k : GoStr) (e : FsEntry) :
    (fs.insertKey k e).lookupKey k = some e := by
  simp [FS.insertKey, FS.lookupKey, List.find?]

theorem FS.lookupKey_insertKey_ne (fs : FS) (k k' : GoStr) (e : FsEntry) (h : k' ≠ k) :
    (fs.insertKey k e).lookupKey k' = fs.lookupKey k' := by
  simp only [FS.insertKey, FS.lookupKey, List.find?]
  have hk : (decide (k = k') : Bool) = false := by
    simp only [decide_eq_false_iff_not]
    intro h'
    exact h h'.symm
  simp only [hk]
  rw [find?_filter_of_imp]
  intro kv hkv
  simp only [decide_eq_true_eq] at hkv ⊢
  rw [hkv]
  exact h

theorem FS.lookupKey_eraseKey_self (fs : FS) (k : GoStr) :
    (fs.eraseKey k).lookupKey k = none := by
  simp only [FS.eraseKey, FS.lookupKey]
  have hnone : List.find? (fun kv => decide (kv.1 = k))
      (List.filter (fun kv => decide (kv.1 ≠ k)) fs.entries) = none := by
    rw [List.find?_eq_none]
    intro kv hkv
    simp only [List.mem_filter, decide_eq_true_eq] at hkv
    simp [hkv.2]
  simp [hnone]

theorem FS.lookupKey_eraseKey_ne (fs : FS) (k k' : GoStr) (h : k' ≠ k) :
    (fs.eraseKey k).lookupKey k' = fs.lookupKey k' := by
  simp only [FS.eraseKey, FS.lookupKey]
  rw [find?_filter_of_imp]
  intro kv hkv
  simp only [decide_eq_true_eq] at hkv ⊢
  rw [hkv]
  exact h

theorem FS.insertKey_insertKey_self (fs : FS) (k : GoStr) (e1 e2 : FsEntry) :
    (fs.insertKey k e1).insertKey k e2 = fs.insertKey k e2 := by
  simp [FS.insertKey, List.filter, filter_idem]

theorem FS.insertKey_eraseKey_self (fs : FS) (k : GoStr) (e : FsEntry) :
    (fs.eraseKey k).insertKey k e = fs.insertKey k e := by
  simp [FS.insertKey, FS.eraseKey, filter_idem]

theorem FS.eraseKey_insertKey_self (fs : FS) (k : GoStr) (e : FsEntry) :
    (fs.insertKey k e).eraseKey k = fs.eraseKey k := by
  simp [FS.insertKey, FS.eraseKey, List.filter, filter_idem]

theorem FS.insertKey_cwd (fs : FS) (k : GoStr) (e : FsEntry) : (fs.insertKey k e).cwd = fs.cwd :=
  rfl

theorem FS.eraseKey_cwd (fs : FS) (k : GoStr) : (fs.eraseKey k).cwd = fs.cwd := rfl

theorem FS.mkdirList_cwd : ∀ (l : List GoStr) (fs fs' : FS),
    fs.mkdirList l = .ok fs' → fs'.cwd = fs.cwd := by
  intro l
  induction l with
  | nil =>
    intro fs fs' h
    simp only [FS.mkdirList] at h
    cases h
    rfl
  | cons q rest ih =>
    intro fs fs' h
    simp only [FS.mkdirList] at h
    split at h
    · exact ih fs fs' h
    · split at h
      · exact ih fs fs' h
      · cases h
      · exact (ih _ fs' h).trans rfl

theorem FS.mkdirAll_cwd (fs fs' : FS) (p : GoStr) (h : fs.mkdirAll p = .ok fs') :
    fs'.cwd = fs.cwd := FS.mkdirList_cwd _ fs fs' h

theorem mkdirStep_cwd (fs fs' : FS) (sd pa : GoStr) (h : mkdirStep fs sd pa = .ok fs') :
    fs'.cwd = fs.cwd := by
  simp only [mkdirStep] at h
  split at h
  · exact FS.mkdirAll_cwd fs fs' sd h
  · cases h; rfl

theorem FS.remove_cwd (fs fs' : FS) (p : GoStr) (h : fs.remove p = .ok fs') :
    fs'.cwd = fs.cwd := by
  simp only [FS.remove] at h
  split at h
  · cases h; rfl
  · cases h

theorem multipartRemoveExisting_cwd (fs fs' : FS) (pa : GoStr) (sz : Int)
    (h : multipartRemoveExisting fs pa sz = .ok fs') : fs'.cwd = fs.cwd := by
  simp only [multipartRemoveExisting] at h
  split at h
  · split at h
    · exact FS.remove_cwd fs fs' pa h
    · cases h; rfl
  · cases h; rfl

theorem base64RemoveExisting_cwd (fs fs' : FS) (pa : GoStr)
    (h : base64RemoveExisting fs pa = .ok fs') : fs'.cwd = fs.cwd := by
  simp only [base64RemoveExisting] at h
  split at h
  · split at h
    · exact FS.remove_cwd fs fs' pa h
    · cases h; rfl
  · cases h; rfl

theorem FS.createFile_cwd (fs fs' : FS) (p : GoStr) (h : fs.createFile p = .ok fs') :
    fs'.cwd = fs.cwd := by
  simp only [FS.createFile] at h
  split at h
  · cases h
  · split at h
    · cases h; rfl
    · cases h

theorem FS.writeFile_cwd (fs : FS) (p : GoStr) (c : List Nat) :
    (fs.writeFile p c).cwd = fs.cwd := rfl

/-! ## Inversion of a successful single-item copy -/

theorem Storage.multipartCopy_ok_inv (sep : Char) (s : Storage) (param : FileStorage)
    (file : MultipartFileHeader) (fs : FS) (r : FileStorageResult) (fs' : FS)
    (pp : ResolvedPaths)
    (hpp : pp = buildPaths sep fs.cwd s param (sha256hex file.content ++ goPathExt file.Filename))
    (h : Storage.multipartCopy sep s param file fs = (.ok r, fs')) :
    ∃ fsA fsB fsC,
      mkdirStep fs pp.storageDirectory pp.pathAbs = .ok fsA ∧
      multipartRemoveExisting fsA pp.pathAbs file.Size = .ok fsB ∧
      fsB.createFile pp.pathAbs = .ok fsC ∧
      fs' = fsC.writeFile pp.pathAbs file.content ∧
      r = { Size := file.Size, OriginName := file.Filename, Hash := sha256hex file.content,
            FileExt := goPathExt file.Filename,
            Name := sha256hex file.content ++ goPathExt file.Filename,
            PathAbs := pp.pathAbs, PathRlt := pp.pathRlt, PathUri := pp.pathUri } := by
  subst hpp
  simp only [Storage.multipartCopy] at h
  split at h
  · simp at h
  next fsA hA =>
    split at h
    · simp at h
    next fsB hB =>
      split at h
      · simp at h
      next fsC hC =>
        simp only [Prod.mk.injEq, Except.ok.injEq] at h
        exact ⟨fsA, fsB, fsC, hA, hB, hC, h.2.symm, h.1.symm⟩

theorem Storage.base64Copy_ok_inv (sep : Char) (s : Storage) (param : FileStorage)
    (content : List Nat) (fs : FS) (r : FileStorageResult) (fs' : FS)
    (h : Storage.base64Copy sep s param content fs = (.ok r, fs')) :
    ∃ subtype payload imageContent fsA fsB fsC,
      parseImageBase64 content = some (subtype, payload) ∧
      base64StdDecode payload = .ok imageContent ∧
      (let pp := buildPaths sep fs.cwd s param (sha256hex content ++ '.' :: bytesToStr subtype)
       mkdirStep fs pp.storageDirectory pp.pathAbs = .ok fsA ∧
       base64RemoveExisting fsA pp.pathAbs = .ok fsB ∧
       fsB.createFile pp.pathAbs = .ok fsC ∧
       fs' = fsC.writeFile pp.pathAbs imageContent ∧
       r = { Hash := sha256hex content, FileExt := '.' :: bytesToStr subtype,
             Name := sha256hex content ++ '.' :: bytesToStr subtype,
             PathAbs := pp.pathAbs, PathRlt := pp.pathRlt, PathUri := pp.pathUri }) := by
  simp only [Storage.base64Copy] at h
  split at h
  · simp at h
  next subtype payload hparse =>
    split at h
    · simp at h
    next imageContent hdec =>
      split at h
      · simp at h
      next fsA hA =>
        split at h
        · simp at h
        next fsB hB =>
          split at h
          · simp at h
          next fsC hC =>
            simp only [Prod.mk.injEq, Except.ok.injEq] at h
            exact ⟨subtype, payload, imageContent, fsA, fsB, fsC, hparse, hdec,
                   hA, hB, hC, h.2.symm, h.1.symm⟩

/-! ## Shape of the final PathUri -/

theorem goHasPre_slash_iff (u : GoStr) : goHasPre u ['/'] = true ↔ u.head? = some '/' := by
  cases u with
  | nil => simp [goHasPre, List.isPrefixOf]
  | cons c tl =>
    simp only [goHasPre, List.isPrefixOf, List.head?_cons, Option.some.injEq]
    constructor
    · intro h
      have := (Bool.and_eq_true _ _).mp h
      have hc : ('/' == c) = true := this.1
      exact (beq_iff_eq.mp hc).symm
    · intro h
      subst h
      simp [List.isPrefixOf]

theorem uriFinal_shape (sep : Char) (u : GoStr) :
    ((if sep ≠ '/' then
        replaceAllChar (if !goHasPre u ['/'] then '/' :: u else u) sep '/'
      else (if !goHasPre u ['/'] then '/' :: u else u)).head? = some '/') ∧
    (sep ≠ '/' →
      sep ∉ (if sep ≠ '/' then
               replaceAllChar (if !goHasPre u ['/'] then '/' :: u else u) sep '/'
             else (if !goHasPre u ['/'] then '/' :: u else u))) := by
  have hv : (if !goHasPre u ['/'] then '/' :: u else u).head? = some '/' := by
    by_cases hpre : goHasPre u ['/'] = true
    · simp [hpre, (goHasPre_slash_iff u).mp hpre]
    · simp only [Bool.not_eq_true] at hpre
      simp [hpre]
  constructor
  · by_cases hsep : sep ≠ '/'
    · simp only [if_pos hsep]
      cases hval : (if !goHasPre u ['/'] then '/' :: u else u) with
      | nil => rw [hval] at hv; simp at hv
      | cons c tl =>
        rw [hval] at hv
        simp only [List.head?_cons, Option.some.injEq] at hv
        subst hv
        simp only [replaceAllChar, List.map_cons, List.head?_cons, Option.some.injEq]
        by_cases hc : '/' = sep
        · simp [hc]
        · simp [hc]
    · simp only [if_neg hsep]
      exact hv
  · intro hsep
    simp only [if_pos hsep]
    intro hmem
    simp only [replaceAllChar, List.mem_map] at hmem
    obtain ⟨x, _, hx⟩ := hmem
    by_cases hxa : x = sep
    · rw [if_pos hxa] at hx
      exact hsep hx.symm
    · rw [if_neg hxa] at hx
      exact hxa hx

theorem buildPaths_pathUri_shape (sep : Char) (cwd : GoStr) (s : Storage) (param : FileStorage)
    (name : GoStr) :
    (buildPaths sep cwd s param name).pathUri.head? = some '/' ∧
    (sep ≠ '/' → sep ∉ (buildPaths sep cwd s param name).pathUri) := by
  simp only [buildPaths]
  exact uriFinal_shape sep _

/-! ## Concrete fixtures used by the witnesses and counterexamples -/

/-- Process defaults as in the example server: storage under /data, uri
prefix /static. -/
def exStorage : Storage := ⟨"/data".data, "/static".data⟩

/-- Per-request parameters with no overrides and no sub directory. -/
def exParam : FileStorage := ⟨[], [], []⟩

/-- An empty filesystem with working directory /srv. -/
def exFS : FS := ⟨[], "/srv".data⟩

/-- A three-byte multipart upload whose header size matches its content. -/
def exHeader : MultipartFileHeader := ⟨"photo.png".data, 3, [1, 2, 3]⟩

/-- A well-formed data uri whose payload decodes to the ASCII bytes hi. -/
def exDataUri : List Nat := bytes "data:image/png;base64,aGk="

/-- A plain-text input that does not match the image data-uri pattern. -/
def exPlain : List Nat := bytes "hello"

/-- Result pair of the example multipart upload. -/
def exMultipartRun : Except GoStr FileStorageResult × FS :=
  Storage.multipartCopy '/' exStorage exParam exHeader exFS

/-- Record returned by the example multipart upload. -/
def exMultipartRecord : FileStorageResult := exMultipartRun.1.toOption.getD {}

/-- Filesystem after the example multipart upload. -/
def exMultipartFS : FS := exMultipartRun.2

/-- Result pair of the example base64 upload. -/
def exBase64Run : Except GoStr FileStorageResult × FS :=
  Storage.base64Copy '/' exStorage exParam exDataUri exFS

/-- Record returned by the example base64 upload. -/
def exBase64Record : FileStorageResult := exBase64Run.1.toOption.getD {}

/-- Filesystem after the example base64 upload. -/
def exBase64FS : FS := exBase64Run.2

/-! ## Claim C10 -/

/-- C10: for every successful single-item store, multipart or base64, the
Hash field of the returned record is a string of exactly 64 lower-case
hexadecimal characters and the Name field equals Hash concatenated with
FileExt. -/
theorem hash_is_hex64_and_name_is_hash_ext :
    (∀ (sep : Char) (s : Storage) (param : FileStorage) (file : MultipartFileHeader)
       (fs fs' : FS) (r : FileStorageResult),
       Storage.multipartCopy sep s param file fs = (.ok r, fs') →
       r.Hash.length = 64 ∧ (∀ c ∈ r.Hash, isLowerHex c) ∧ r.Name = r.Hash ++ r.FileExt) ∧
    (∀ (sep : Char) (s : Storage) (param : FileStorage) (content : List Nat)
       (fs fs' : FS) (r : FileStorageResult),
       Storage.base64Copy sep s param content fs = (.ok r, fs') →
       r.Hash.length = 64 ∧ (∀ c ∈ r.Hash, isLowerHex c) ∧ r.Name = r.Hash ++ r.FileExt) := by
  constructor
  · intro sep s param file fs fs' r h
    obtain ⟨fsA, fsB, fsC, _, _, _, _, hr⟩ :=
      Storage.multipartCopy_ok_inv sep s param file fs r fs' _ rfl h
    subst hr
    exact ⟨sha256hex_length _, fun c hc => sha256hex_lowerHex _ c hc, rfl⟩
  · intro sep s param content fs fs' r h
    obtain ⟨subtype, payload, imageContent, fsA, fsB, fsC, _, _, _, _, _, _, hr⟩ :=
      Storage.base64Copy_ok_inv sep s param content fs r fs' h
    subst hr
    exact ⟨sha256hex_length _, fun c hc => sha256hex_lowerHex _ c hc, rfl⟩

/-- Witness for C10: both halves applied to the concrete example uploads. -/
theorem hash_is_hex64_and_name_is_hash_ext_witness :
    (exMultipartRecord.Hash.length = 64 ∧
     exMultipartRecord.Name = exMultipartRecord.Hash ++ exMultipartRecord.FileExt) ∧
    (exBase64Record.Hash.length = 64 ∧
     exBase64Record.Name = exBase64Record.Hash ++ exBase64Record.FileExt) := by
  have h1 := hash_is_hex64_and_name_is_hash_ext.1 '/' exStorage exParam exHeader exFS
    exMultipartFS exMultipartRecord (by decide)
  have h2 := hash_is_hex64_and_name_is_hash_ext.2 '/' exStorage exParam exDataUri exFS
    exBase64FS exBase64Record (by decide)
  exact ⟨⟨h1.1, h1.2.2⟩, ⟨h2.1, h2.2.2⟩⟩

/-! ## Claim C5 -/

/-- C5: for every input byte string that does not match the pattern
data colon image slash type semicolon base64 comma payload, the base64
store operation fails with the invalid-payload error and leaves the
filesystem exactly as it was, writing no file. -/
theorem base64_invalid_payload_no_write (sep : Char) (s : Storage) (param : FileStorage)
    (content : List Nat) (fs : FS) (h : parseImageBase64 content = none) :
    Storage.base64Copy sep s param content fs = (.error "illegal image base64 value".data, fs) := by
  simp [Storage.base64Copy, h]

/-- Witness for C5: plain text input on the example filesystem. -/
theorem base64_invalid_payload_no_write_witness :
    parseImageBase64 exPlain = none ∧
    Storage.base64Copy '/' exStorage exParam exPlain exFS =
      (.error "illegal image base64 value".data, exFS) :=
  ⟨by decide, base64_invalid_payload_no_write '/' exStorage exParam exPlain exFS (by decide)⟩

/-! ## Claim C4 -/

/-- C4: when an entry already exists at the resolved destination, the
multipart remove step deletes it exactly when its stat size equals the
new Size and it is not a directory, while the base64 remove step deletes
it exactly when it is not a directory, regardless of size. -/
theorem remove_existing_policies :
    (∀ (fs : FS) (pa : GoStr) (sz : Int) (e : FsEntry), fs.stat pa = some e →
       multipartRemoveExisting fs pa sz =
         .ok (if e.statSize = sz ∧ e.isDir = false then fs.eraseKey (normPath fs.cwd pa) else fs)) ∧
    (∀ (fs : FS) (pa : GoStr) (e : FsEntry), fs.stat pa = some e →
       base64RemoveExisting fs pa =
         .ok (if e.isDir = false then fs.eraseKey (normPath fs.cwd pa) else fs)) := by
  constructor
  · intro fs pa sz e hstat
    have hlook : fs.lookupKey (normPath fs.cwd pa) = some e := hstat
    simp only [multipartRemoveExisting, hstat]
    by_cases hcond : e.statSize = sz ∧ e.isDir = false
    · rw [if_pos hcond]
      have : (e.statSize = sz ∧ (!e.isDir) = true) := ⟨hcond.1, by simp [hcond.2]⟩
      rw [if_pos this]
      simp [FS.remove, hlook]
    · rw [if_neg hcond]
      have : ¬ (e.statSize = sz ∧ (!e.isDir) = true) := by
        intro hc
        exact hcond ⟨hc.1, by simpa using hc.2⟩
      rw [if_neg this]
  · intro fs pa e hstat
    have hlook : fs.lookupKey (normPath fs.cwd pa) = some e := hstat
    simp only [base64RemoveExisting, hstat]
    by_cases hcond : e.isDir = false
    · rw [if_pos hcond]
      have : ((!e.isDir) = true) := by simp [hcond]
      rw [if_pos this]
      simp [FS.remove, hlook]
    · rw [if_neg hcond]
      have : ¬ ((!e.isDir) = true) := by simpa using hcond
      rw [if_neg this]

/-- Filesystem holding a two-byte file at the example destination path,
keyed canonically, used to exercise the remove policies. -/
def exOccupiedFS : FS := ⟨[("/data/occupied.png".data, .file [9, 9])], "/srv".data⟩

/-- Witness for C4: on a two-byte existing file, the multipart step with
matching size 2 removes it (and with size 3 it would not), and the base64
step removes it regardless. -/
theorem remove_existing_policies_witness :
    multipartRemoveExisting exOccupiedFS "/data/occupied.png".data 2 =
      .ok (exOccupiedFS.eraseKey "/data/occupied.png".data) ∧
    base64RemoveExisting exOccupiedFS "/data/occupied.png".data =
      .ok (exOccupiedFS.eraseKey "/data/occupied.png".data) := by
  have h1 := remove_existing_policies.1 exOccupiedFS "/data/occupied.png".data 2
    (.file [9, 9]) (by decide)
  have h2 := remove_existing_policies.2 exOccupiedFS "/data/occupied.png".data
    (.file [9, 9]) (by decide)
  rw [if_pos (by decide)] at h1
  rw [if_pos (by decide)] at h2
  constructor
  · rw [h1]
    decide
  · rw [h2]
    decide

/-! ## Claim C6 -/

/-- C6: with base directory /data, sub directory 2024/01/01, uri prefix
/static, content hash abc123 and extension .png (name abc123.png), the
resolved record paths are absolutePath /data/2024/01/01/abc123.png and
publicPath /static/2024/01/01/abc123.png.  buildPaths is the shared path
computation of both copy routines, applied to the finished name. -/
theorem path_correctness_data_static :
    (buildPaths '/' "/srv".data ⟨"/data".data, "/static".data⟩
        ⟨[], [], "2024/01/01".data⟩ "abc123.png".data).pathAbs =
      "/data/2024/01/01/abc123.png".data ∧
    (buildPaths '/' "/srv".data ⟨"/data".data, "/static".data⟩
        ⟨[], [], "2024/01/01".data⟩ "abc123.png".data).pathUri =
      "/static/2024/01/01/abc123.png".data := by
  decide

/-! ## Claim C2 -/

/-- C2 counterexample: a base64 batch whose second input fails returns the
record of the first input alongside the error, so the caller does receive
a partial success list, contrary to the claim. -/
theorem batch_error_returns_partial_list :
    (Storage.Base64Copy '/' exStorage exParam [some exDataUri, some exPlain] exFS).1.1.length = 1 ∧
    (Storage.Base64Copy '/' exStorage exParam [some exDataUri, some exPlain] exFS).1.2 =
      some "illegal image base64 value".data := by
  decide

theorem multipartCopyLoop_first_error (sep : Char) (s : Storage) (param : FileStorage)
    (x : MultipartFileHeader) (files2 : List (Option MultipartFileHeader)) (e : GoStr)
    (fse : FS) :
    ∀ (files1 : List (Option MultipartFileHeader)) (fs : FS) (acc rs : List FileStorageResult)
      (fs1 : FS),
      Storage.multipartCopyLoop sep s param files1 fs acc = ((rs, none), fs1) →
      Storage.multipartCopy sep s param x fs1 = (.error e, fse) →
      Storage.multipartCopyLoop sep s param (files1 ++ some x :: files2) fs acc =
        ((rs, some e), fse) := by
  intro files1
  induction files1 with
  | nil =>
    intro fs acc rs fs1 h hx
    simp only [Storage.multipartCopyLoop] at h
    obtain ⟨⟨rfl, -⟩, rfl⟩ : (acc = rs ∧ (none : Option GoStr) = none) ∧ fs = fs1 := by
      simpa using h
    simp [Storage.multipartCopyLoop, hx]
  | cons o rest ih =>
    intro fs acc rs fs1 h hx
    cases o with
    | none =>
      simp only [Storage.multipartCopyLoop, List.cons_append] at h ⊢
      exact ih fs acc rs fs1 h hx
    | some f =>
      simp only [Storage.multipartCopyLoop, List.cons_append] at h ⊢
      split at h
      next e' fs' heq => simp at h
      next r fs' heq => exact ih fs' (acc ++ [r]) rs fs1 h hx

theorem base64CopyLoop_first_error (sep : Char) (s : Storage) (param : FileStorage)
    (x : List Nat) (files2 : List (Option (List Nat))) (e : GoStr) (fse : FS) :
    ∀ (files1 : List (Option (List Nat))) (fs : FS) (acc rs : List FileStorageResult)
      (fs1 : FS),
      Storage.base64CopyLoop sep s param files1 fs acc = ((rs, none), fs1) →
      Storage.base64Copy sep s param x fs1 = (.error e, fse) →
      Storage.base64CopyLoop sep s param (files1 ++ some x :: files2) fs acc =
        ((rs, some e), fse) := by
  intro files1
  induction files1 with
  | nil =>
    intro fs acc rs fs1 h hx
    simp only [Storage.base64CopyLoop] at h
    obtain ⟨⟨rfl, -⟩, rfl⟩ : (acc = rs ∧ (none : Option GoStr) = none) ∧ fs = fs1 := by
      simpa using h
    simp [Storage.base64CopyLoop, hx]
  | cons o rest ih =>
    intro fs acc rs fs1 h hx
    cases o with
    | none =>
      simp only [Storage.base64CopyLoop, List.cons_append] at h ⊢
      exact ih fs acc rs fs1 h hx
    | some c =>
      simp only [Storage.base64CopyLoop, List.cons_append] at h ⊢
      split at h
      next e' fs' heq => simp at h
      next r fs' heq => exact ih fs' (acc ++ [r]) rs fs1 h hx

/-- C2 amended: in both batch operations, processing stops at the first
failing input (later inputs are never processed) and the error is
returned to the caller together with the list of records of the inputs
already processed; that partial list is not discarded. -/
theorem batch_stops_at_first_error_with_partial_list :
    (∀ (sep : Char) (s : Storage) (param : FileStorage)
       (files1 : List (Option MultipartFileHeader)) (x : MultipartFileHeader)
       (files2 : List (Option MultipartFileHeader)) (fs : FS) (rs : List FileStorageResult)
       (fs1 : FS) (e : GoStr) (fse : FS),
       Storage.MultipartCopy sep s param files1 fs = ((rs, none), fs1) →
       Storage.multipartCopy sep s param x fs1 = (.error e, fse) →
       Storage.MultipartCopy sep s param (files1 ++ some x :: files2) fs = ((rs, some e), fse)) ∧
    (∀ (sep : Char) (s : Storage) (param : FileStorage)
       (files1 : List (Option (List Nat))) (x : List Nat) (files2 : List (Option (List Nat)))
       (fs : FS) (rs : List FileStorageResult) (fs1 : FS) (e : GoStr) (fse : FS),
       Storage.Base64Copy sep s param files1 fs = ((rs, none), fs1) →
       Storage.base64Copy sep s param x fs1 = (.error e, fse) →
       Storage.Base64Copy sep s param (files1 ++ some x :: files2) fs = ((rs, some e), fse)) := by
  constructor
  · intro sep s param files1 x files2 fs rs fs1 e fse h hx
    exact multipartCopyLoop_first_error sep s param x files2 e fse files1 fs [] rs fs1 h hx
  · intro sep s param files1 x files2 fs rs fs1 e fse h hx
    exact base64CopyLoop_first_error sep s param x files2 e fse files1 fs [] rs fs1 h hx

/-- Filesystem with a directory squatting on the destination path of the
example multipart upload, which makes os.Create fail. -/
def exDirFS : FS := ⟨[(exMultipartRecord.PathAbs, .dir)], "/srv".data⟩

/-- Witness for the amended C2: a one-element multipart batch whose only
input fails on a directory conflict, and a three-element base64 batch
whose second input is invalid, which returns the first record with the
error and never processes the third input. -/
theorem batch_stops_at_first_error_witness :
    Storage.MultipartCopy '/' exStorage exParam [some exHeader] exDirFS =
      (([], some "create: is a directory".data), exDirFS) ∧
    Storage.Base64Copy '/' exStorage exParam [some exDataUri, some exPlain, some exDataUri] exFS =
      (([exBase64Record], some "illegal image base64 value".data), exBase64FS) := by
  constructor
  · exact batch_stops_at_first_error_with_partial_list.1 '/' exStorage exParam [] exHeader []
      exDirFS [] exDirFS "create: is a directory".data exDirFS (by decide) (by decide)
  · exact batch_stops_at_first_error_with_partial_list.2 '/' exStorage exParam [some exDataUri]
      exPlain [some exDataUri] exFS [exBase64Record] exBase64FS
      "illegal image base64 value".data exBase64FS (by decide) (by decide)

/-! ## Claim C3 -/

/-- C3 counterexample: the example base64 upload stores two bytes on disk
but the returned record carries Size zero, so the size field does not
equal the byte count of the stored content. -/
theorem base64_size_zero_counterexample :
    Storage.base64Copy '/' exStorage exParam exDataUri exFS = (.ok exBase64Record, exBase64FS) ∧
    exBase64Record.Size = 0 ∧
    exBase64FS.stat exBase64Record.PathAbs = some (.file (bytes "hi")) ∧
    (bytes "hi").length = 2 := by
  decide

/-- C3 amended: a multipart record carries the header-declared Size (which
the multipart parser sets to the content byte count) and the stored file
content is exactly the uploaded bytes, while a base64 record always
carries Size zero regardless of the stored content. -/
theorem size_field_semantics :
    (∀ (sep : Char) (s : Storage) (param : FileStorage) (file : MultipartFileHeader)
       (fs fs' : FS) (r : FileStorageResult),
       Storage.multipartCopy sep s param file fs = (.ok r, fs') →
       r.Size = file.Size ∧ fs'.stat r.PathAbs = some (.file file.content)) ∧
    (∀ (sep : Char) (s : Storage) (param : FileStorage) (content : List Nat)
       (fs fs' : FS) (r : FileStorageResult),
       Storage.base64Copy sep s param content fs = (.ok r, fs') → r.Size = 0) := by
  constructor
  · intro sep s param file fs fs' r h
    obtain ⟨fsA, fsB, fsC, _, _, _, hfs', hr⟩ :=
      Storage.multipartCopy_ok_inv sep s param file fs r fs' _ rfl h
    subst hr
    subst hfs'
    refine ⟨rfl, ?_⟩
    simp only [FS.stat, FS.writeFile]
    exact FS.lookupKey_insertKey_self _ _ _
  · intro sep s param content fs fs' r h
    obtain ⟨subtype, payload, imageContent, fsA, fsB, fsC, _, _, _, _, _, _, hr⟩ :=
      Storage.base64Copy_ok_inv sep s param content fs r fs' h
    subst hr
    rfl

/-- Witness for the amended C3: the example multipart and base64 uploads. -/
theorem size_field_semantics_witness :
    (exMultipartRecord.Size = 3 ∧
     exMultipartFS.stat exMultipartRecord.PathAbs = some (.file [1, 2, 3])) ∧
    exBase64Record.Size = 0 := by
  have h1 := size_field_semantics.1 '/' exStorage exParam exHeader exFS
    exMultipartFS exMultipartRecord (by decide)
  have h2 := size_field_semantics.2 '/' exStorage exParam exDataUri exFS
    exBase64FS exBase64Record (by decide)
  exact ⟨⟨h1.1, h1.2⟩, h2⟩

/-! ## Claim C1 -/

/-- C1 fails on the base64 path: the record Hash is the digest of the
entire raw data-uri input (line 194 hashes content, not imageContent),
while the bytes written to disk are the decoded payload, so Name is not
the digest of the stored bytes concatenated with the extension.  The
multipart half of the claim does hold: there the stream is hashed, rewound
and copied, so the digest is over the written bytes. -/
theorem base64_hash_is_of_raw_input_not_stored_bytes :
    Storage.base64Copy '/' exStorage exParam exDataUri exFS = (.ok exBase64Record, exBase64FS) ∧
    exBase64Record.Hash = sha256hex exDataUri ∧
    exBase64FS.stat exBase64Record.PathAbs = some (.file (bytes "hi")) ∧
    exBase64Record.Name ≠ sha256hex (bytes "hi") ++ exBase64Record.FileExt := by
  decide

/-! ## Claim C8 -/

/-- C8: for every successful store from either source, on any host, the
returned PathUri starts with a slash, and when the host path separator is
not a slash the PathUri contains no occurrence of that separator. -/
theorem public_path_slash_normalized :
    (∀ (sep : Char) (s : Storage) (param : FileStorage) (file : MultipartFileHeader)
       (fs fs' : FS) (r : FileStorageResult),
       Storage.multipartCopy sep s param file fs = (.ok r, fs') →
       r.PathUri.head? = some '/' ∧ (sep ≠ '/' → sep ∉ r.PathUri)) ∧
    (∀ (sep : Char) (s : Storage) (param : FileStorage) (content : List Nat)
       (fs fs' : FS) (r : FileStorageResult),
       Storage.base64Copy sep s param content fs = (.ok r, fs') →
       r.PathUri.head? = some '/' ∧ (sep ≠ '/' → sep ∉ r.PathUri)) := by
  constructor
  · intro sep s param file fs fs' r h
    obtain ⟨fsA, fsB, fsC, _, _, _, _, hr⟩ :=
      Storage.multipartCopy_ok_inv sep s param file fs r fs' _ rfl h
    subst hr
    exact buildPaths_pathUri_shape sep fs.cwd s param _
  · intro sep s param content fs fs' r h
    obtain ⟨subtype, payload, imageContent, fsA, fsB, fsC, _, _, _, _, _, _, hr⟩ :=
      Storage.base64Copy_ok_inv sep s param content fs r fs' h
    subst hr
    exact buildPaths_pathUri_shape sep fs.cwd s param _

/-- Result pair of the example multipart upload on a host whose path
separator is a backslash. -/
def exMultipartRunBS : Except GoStr FileStorageResult × FS :=
  Storage.multipartCopy '\\' exStorage exParam exHeader exFS

/-- Record of the example multipart upload on the backslash host. -/
def exMultipartRecordBS : FileStorageResult := exMultipartRunBS.1.toOption.getD {}

/-- Filesystem after the example multipart upload on the backslash host. -/
def exMultipartFSBS : FS := exMultipartRunBS.2

/-- Witness for C8: a successful store on a backslash-separator host. -/
theorem public_path_slash_normalized_witness :
    exMultipartRecordBS.PathUri.head? = some '/' ∧ '\\' ∉ exMultipartRecordBS.PathUri := by
  have h := public_path_slash_normalized.1 '\\' exStorage exParam exHeader exFS
    exMultipartFSBS exMultipartRecordBS (by decide)
  exact ⟨h.1, h.2 (by decide)⟩

/-! ## Claim C9 -/

/-- Decimal digit character predicate. -/
def isDigitChar (c : Char) : Prop := '0' ≤ c ∧ c ≤ '9'

instance (c : Char) : Decidable (isDigitChar c) := by unfold isDigitChar; infer_instance

/-- Numeric value of a decimal digit string. -/
def digitsVal (s : GoStr) : Nat := s.foldl (fun acc c => 10 * acc + (c.toNat - 48)) 0

theorem natDecAux_base (fuel n : Nat) (acc : GoStr) (h : n < 10) :
    natDecAux (fuel + 1) n acc = digitChar n :: acc := by
  simp [natDecAux, h]

theorem natDecAux_step (fuel n : Nat) (acc : GoStr) (h : ¬ n < 10) :
    natDecAux (fuel + 1) n acc = natDecAux fuel (n / 10) (digitChar (n % 10) :: acc) := by
  simp [natDecAux, h]

theorem natDec_lt10 (n : Nat) (h : n < 10) : natDec n = [digitChar n] :=
  natDecAux_base n n [] h

theorem natDec_lt100 (n : Nat) (h1 : 10 ≤ n) (h2 : n < 100) :
    natDec n = [digitChar (n / 10), digitChar (n % 10)] := by
  obtain ⟨m, rfl⟩ : ∃ m, n = m + 1 := ⟨n - 1, by omega⟩
  rw [natDec, natDecAux_step _ _ _ (by omega), natDecAux_base _ _ _ (by omega)]

theorem natDec_lt1000 (n : Nat) (h1 : 100 ≤ n) (h2 : n < 1000) :
    natDec n = [digitChar (n / 100), digitChar (n / 10 % 10), digitChar (n % 10)] := by
  obtain ⟨m, rfl⟩ : ∃ m, n = m + 2 := ⟨n - 2, by omega⟩
  rw [natDec, natDecAux_step _ _ _ (by omega), natDecAux_step _ _ _ (by omega),
      natDecAux_base _ _ _ (by omega)]
  rw [Nat.div_div_eq_div_mul]

theorem natDec_lt10000 (n : Nat) (h1 : 1000 ≤ n) (h2 : n < 10000) :
    natDec n = [digitChar (n / 1000), digitChar (n / 100 % 10), digitChar (n / 10 % 10),
                digitChar (n % 10)] := by
  obtain ⟨m, rfl⟩ : ∃ m, n = m + 3 := ⟨n - 3, by omega⟩
  rw [natDec, natDecAux_step _ _ _ (by omega), natDecAux_step _ _ _ (by omega),
      natDecAux_step _ _ _ (by omega), natDecAux_base _ _ _ (by omega)]
  rw [Nat.div_div_eq_div_mul, Nat.div_div_eq_div_mul, Nat.div_div_eq_div_mul]

theorem digitChar_toNat (k : Nat) (h : k < 10) : (digitChar k).toNat = 48 + k := by
  interval_cases k <;> decide

theorem isDigitChar_digitChar (k : Nat) (h : k < 10) : isDigitChar (digitChar k) := by
  interval_cases k <;> decide

theorem goSprintf0_2_spec (n : Nat) (h : n ≤ 99) :
    (goSprintf0 2 n).length = 2 ∧ (∀ c ∈ goSprintf0 2 n, isDigitChar c) ∧
    digitsVal (goSprintf0 2 n) = n := by
  by_cases h10 : n < 10
  · rw [goSprintf0, natDec_lt10 n h10]
    refine ⟨by simp, ?_, ?_⟩
    · intro c hc
      simp only [List.length_cons, List.length_nil] at hc
      simp only [List.replicate, List.cons_append, List.nil_append, List.mem_cons,
        List.not_mem_nil, or_false] at hc
      rcases hc with rfl | rfl
      · decide
      · exact isDigitChar_digitChar n h10
    · simp [digitsVal, List.foldl, digitChar_toNat n h10, List.replicate]
  · rw [goSprintf0, natDec_lt100 n (by omega) (by omega)]
    refine ⟨by simp, ?_, ?_⟩
    · intro c hc
      simp only [List.length_cons, List.length_nil, Nat.sub_self, List.replicate,
        List.nil_append, List.mem_cons, List.not_mem_nil, or_false] at hc
      rcases hc with rfl | rfl
      · exact isDigitChar_digitChar _ (by omega)
      · exact isDigitChar_digitChar _ (by omega)
    · simp only [List.length_cons, List.length_nil, Nat.sub_self, List.replicate,
        List.nil_append, digitsVal, List.foldl]
      rw [digitChar_toNat _ (by omega), digitChar_toNat _ (by omega)]
      omega

theorem goSprintf0_4_spec (n : Nat) (h : n ≤ 9999) :
    (goSprintf0 4 n).length = 4 ∧ (∀ c ∈ goSprintf0 4 n, isDigitChar c) ∧
    digitsVal (goSprintf0 4 n) = n := by
  by_cases h10 : n < 10
  · rw [goSprintf0, natDec_lt10 n h10]
    refine ⟨by simp, ?_, ?_⟩
    · intro c hc
      simp only [List.length_cons, List.length_nil, List.replicate, List.cons_append,
        List.nil_append, List.mem_cons, List.not_mem_nil, or_false] at hc
      rcases hc with rfl | rfl | rfl | rfl
      · decide
      · decide
      · decide
      · exact isDigitChar_digitChar n h10
    · simp [digitsVal, List.foldl, digitChar_toNat n h10, List.replicate]
  · by_cases h100 : n < 100
    · rw [goSprintf0, natDec_lt100 n (by omega) h100]
      refine ⟨by simp, ?_, ?_⟩
      · intro c hc
        simp only [List.length_cons, List.length_nil, List.replicate, List.cons_append,
          List.nil_append, List.mem_cons, List.not_mem_nil, or_false] at hc
        rcases hc with rfl | rfl | rfl | rfl
        · decide
        · decide
        · exact isDigitChar_digitChar _ (by omega)
        · exact isDigitChar_digitChar _ (by omega)
      · simp only [List.length_cons, List.length_nil, List.replicate, List.cons_append,
          List.nil_append, digitsVal, List.foldl]
        rw [digitChar_toNat _ (by omega), digitChar_toNat _ (by omega)]
        have h0 : ('0' : Char).toNat = 48 := rfl
        simp only [h0]
        omega
    · by_cases h1000 : n < 1000
      · rw [goSprintf0, natDec_lt1000 n (by omega) h1000]
        refine ⟨by simp, ?_, ?_⟩
        · intro c hc
          simp only [List.length_cons, List.length_nil, List.replicate, List.cons_append,
            List.nil_append, List.mem_cons, List.not_mem_nil, or_false] at hc
          rcases hc with rfl | rfl | rfl | rfl
          · decide
          · exact isDigitChar_digitChar _ (by omega)
          · exact isDigitChar_digitChar _ (by omega)
          · exact isDigitChar_digitChar _ (by omega)
        · simp only [List.length_cons, List.length_nil, List.replicate, List.cons_append,
            List.nil_append, digitsVal, List.foldl]
          rw [digitChar_toNat _ (by omega), digitChar_toNat _ (by omega),
              digitChar_toNat _ (by omega)]
          have h0 : ('0' : Char).toNat = 48 := rfl
          simp only [h0]
          omega
      · rw [goSprintf0, natDec_lt10000 n (by omega) (by omega)]
        refine ⟨by simp, ?_, ?_⟩
        · intro c hc
          simp only [List.length_cons, List.length_nil, List.replicate, Nat.sub_self,
            List.nil_append, List.mem_cons, List.not_mem_nil, or_false] at hc
          rcases hc with rfl | rfl | rfl | rfl
          · exact isDigitChar_digitChar _ (by omega)
          · exact isDigitChar_digitChar _ (by omega)
          · exact isDigitChar_digitChar _ (by omega)
          · exact isDigitChar_digitChar _ (by omega)
        · simp only [List.length_cons, List.length_nil, List.replicate, Nat.sub_self,
            List.nil_append, digitsVal, List.foldl]
          rw [digitChar_toNat _ (by omega), digitChar_toNat _ (by omega),
              digitChar_toNat _ (by omega), digitChar_toNat _ (by omega)]
          omega

/-- C9: for every base relative path and every wall-clock year, month and
day in calendar range, SubDirectoryDate returns the base path path-joined
with three further segments: the 4-character zero-padded decimal year,
the 2-character zero-padded decimal month, and the 2-character zero-padded
decimal day, in that order; the padded strings consist of decimal digits
and read back to the original numbers. -/
theorem subDirectoryDate_spec (s : Storage) (p : GoStr) (y m d : Nat)
    (hy : y ≤ 9999) (hm1 : 1 ≤ m) (hm2 : m ≤ 12) (hd1 : 1 ≤ d) (hd2 : d ≤ 31) :
    Storage.SubDirectoryDate s p y m d =
      goPathJoin [p, goSprintf0 4 y, goSprintf0 2 m, goSprintf0 2 d] ∧
    (goSprintf0 4 y).length = 4 ∧ (goSprintf0 2 m).length = 2 ∧ (goSprintf0 2 d).length = 2 ∧
    (∀ c ∈ goSprintf0 4 y, isDigitChar c) ∧ (∀ c ∈ goSprintf0 2 m, isDigitChar c) ∧
    (∀ c ∈ goSprintf0 2 d, isDigitChar c) ∧
    digitsVal (goSprintf0 4 y) = y ∧ digitsVal (goSprintf0 2 m) = m ∧
    digitsVal (goSprintf0 2 d) = d := by
  obtain ⟨hyl, hyd, hyv⟩ := goSprintf0_4_spec y hy
  obtain ⟨hml, hmd, hmv⟩ := goSprintf0_2_spec m (by omega)
  obtain ⟨hdl, hdd, hdv⟩ := goSprintf0_2_spec d (by omega)
  exact ⟨rfl, hyl, hml, hdl, hyd, hmd, hdd, hyv, hmv, hdv⟩

/-- Witness for C9: first of January 2024 under the project sub path. -/
theorem subDirectoryDate_spec_witness :
    Storage.SubDirectoryDate exStorage "project1/default".data 2024 1 1 =
      "project1/default/2024/01/01".data ∧
    digitsVal (goSprintf0 4 2024) = 2024 := by
  have h := subDirectoryDate_spec exStorage "project1/default".data 2024 1 1
    (by decide) (by decide) (by decide) (by decide) (by decide)
  exact ⟨by decide, h.2.2.2.2.2.2.2.1⟩

/-! ## Claim C7 -/

theorem FS.stat_writeFile_self (fs : FS) (p : GoStr) (c : List Nat) :
    (fs.writeFile p c).stat p = some (.file c) := by
  simp only [FS.stat, FS.writeFile]
  exact FS.lookupKey_insertKey_self _ _ _

/-- C7: storing the same multipart content with the same parameters a
second time, starting from the filesystem produced by a first successful
store, succeeds, returns a record identical to the first one, and leaves
the filesystem exactly as after the first call, with a single file
holding the content at the resolved path. -/
theorem duplicate_store_idempotent (sep : Char) (s : Storage) (param : FileStorage)
    (file : MultipartFileHeader) (fs0 : FS) (r1 : FileStorageResult) (fs1 : FS)
    (h : Storage.multipartCopy sep s param file fs0 = (.ok r1, fs1)) :
    Storage.multipartCopy sep s param file fs1 = (.ok r1, fs1) ∧
    fs1.stat r1.PathAbs = some (.file file.content) := by
  obtain ⟨fsA, fsB, fsC, hA, hB, hC, hfs1, hr1⟩ :=
    Storage.multipartCopy_ok_inv sep s param file fs0 r1 fs1 _ rfl h
  set pp := buildPaths sep fs0.cwd s param (sha256hex file.content ++ goPathExt file.Filename)
    with hpp
  have hAc : fsA.cwd = fs0.cwd := mkdirStep_cwd _ _ _ _ hA
  have hBc : fsB.cwd = fsA.cwd := multipartRemoveExisting_cwd _ _ _ _ hB
  have hCc : fsC.cwd = fsB.cwd := FS.createFile_cwd _ _ _ hC
  have h1c : fs1.cwd = fs0.cwd := by rw [hfs1, FS.writeFile_cwd, hCc, hBc, hAc]
  have hkeyB : normPath fsB.cwd pp.pathAbs = normPath fs0.cwd pp.pathAbs := by rw [hBc, hAc]
  have hBc0 : fsB.cwd = fs0.cwd := by rw [hBc, hAc]
  have hCc0 : fsC.cwd = fs0.cwd := by rw [hCc, hBc, hAc]
  simp only [FS.createFile, hkeyB] at hC
  obtain ⟨hpar, hCfs, hnotdir⟩ :
      fsB.dirExistsKey (parentPath (normPath fs0.cwd pp.pathAbs)) = true ∧
      fsC = fsB.insertKey (normPath fs0.cwd pp.pathAbs) (.file []) ∧
      fsB.lookupKey (normPath fs0.cwd pp.pathAbs) ≠ some .dir := by
    cases hlB : fsB.lookupKey (normPath fs0.cwd pp.pathAbs) with
    | none =>
      simp only [hlB] at hC
      split at hC
      · exact ⟨by assumption, (Except.ok.inj hC).symm, by simp⟩
      · cases hC
    | some e =>
      cases e with
      | dir => simp only [hlB] at hC; cases hC
      | file c0 =>
        simp only [hlB] at hC
        split at hC
        · exact ⟨by assumption, (Except.ok.inj hC).symm, by simp [hlB]⟩
        · cases hC
  have hfs1U : fs1 = fsB.insertKey (normPath fs0.cwd pp.pathAbs) (.file file.content) := by
    rw [hfs1]
    simp only [FS.writeFile, hCc0]
    rw [hCfs, FS.insertKey_insertKey_self]
  have hstat1 : fs1.stat pp.pathAbs = some (.file file.content) := by
    rw [hfs1]
    exact FS.stat_writeFile_self _ _ _
  have hlook1 : fs1.lookupKey (normPath fs0.cwd pp.pathAbs) = some (.file file.content) := by
    rw [hfs1U]
    exact FS.lookupKey_insertKey_self _ _ _
  have hpar2 : ∀ fsX : FS,
      (∀ q : GoStr, q ≠ normPath fs0.cwd pp.pathAbs → fsX.lookupKey q = fsB.lookupKey q) →
      fsX.dirExistsKey (parentPath (normPath fs0.cwd pp.pathAbs)) = true := by
    intro fsX hX
    by_cases hpk : parentPath (normPath fs0.cwd pp.pathAbs) = normPath fs0.cwd pp.pathAbs
    · rw [hpk] at hpar ⊢
      simp only [FS.dirExistsKey, decide_eq_true_eq] at hpar ⊢
      rcases hpar with hroot | hdir
      · exact Or.inl hroot
      · exact absurd hdir hnotdir
    · simp only [FS.dirExistsKey, decide_eq_true_eq] at hpar ⊢
      rw [hX _ hpk]
      exact hpar
  refine ⟨?_, ?_⟩
  · have hmk2 : mkdirStep fs1 pp.storageDirectory pp.pathAbs = .ok fs1 := by
      simp [mkdirStep, hstat1]
    simp only [Storage.multipartCopy]
    rw [h1c, ← hpp]
    simp only [hmk2]
    by_cases hsz : ((file.content.length : Int) = file.Size)
    · have hrm2 : multipartRemoveExisting fs1 pp.pathAbs file.Size =
          .ok (fsB.eraseKey (normPath fs0.cwd pp.pathAbs)) := by
        simp only [multipartRemoveExisting, hstat1]
        rw [if_pos ⟨hsz, rfl⟩]
        simp only [FS.remove, FS.stat, h1c, hlook1]
        rw [hfs1U, FS.eraseKey_insertKey_self]
      have hYc : (fsB.eraseKey (normPath fs0.cwd pp.pathAbs)).cwd = fs0.cwd := by
        rw [FS.eraseKey_cwd, hBc0]
      have hcr2 : (fsB.eraseKey (normPath fs0.cwd pp.pathAbs)).createFile pp.pathAbs =
          .ok ((fsB.eraseKey (normPath fs0.cwd pp.pathAbs)).insertKey
                (normPath fs0.cwd pp.pathAbs) (.file [])) := by
        simp only [FS.createFile, hYc]
        rw [FS.lookupKey_eraseKey_self]
        rw [if_pos (hpar2 _ (fun q hq => FS.lookupKey_eraseKey_ne fsB _ q hq))]
      simp only [hrm2, hcr2]
      rw [Prod.mk.injEq]
      refine ⟨by rw [hr1], ?_⟩
      simp only [FS.writeFile, FS.insertKey_cwd, hYc]
      rw [FS.insertKey_insertKey_self, FS.insertKey_eraseKey_self, ← hfs1U]
    · have hrm2 : multipartRemoveExisting fs1 pp.pathAbs file.Size = .ok fs1 := by
        simp only [multipartRemoveExisting, hstat1]
        rw [if_neg]
        intro hcond
        exact hsz hcond.1
      have hcr2 : fs1.createFile pp.pathAbs =
          .ok (fs1.insertKey (normPath fs0.cwd pp.pathAbs) (.file [])) := by
        simp only [FS.createFile, h1c]
        rw [hlook1]
        rw [if_pos (hpar2 _ (fun q hq => by
          rw [hfs1U]
          exact FS.lookupKey_insertKey_ne fsB _ q _ hq))]
      simp only [hrm2, hcr2]
      rw [Prod.mk.injEq]
      refine ⟨by rw [hr1], ?_⟩
      simp only [FS.writeFile, FS.insertKey_cwd, h1c]
      rw [FS.insertKey_insertKey_self, hfs1U, FS.insertKey_insertKey_self]
  · rw [hr1]
    exact hstat1

/-- Witness for C7: a second store of the example upload on the
filesystem left by the first. -/
theorem duplicate_store_idempotent_witness :
    Storage.multipartCopy '/' exStorage exParam exHeader exMultipartFS =
      (.ok exMultipartRecord, exMultipartFS) ∧
    exMultipartFS.stat exMultipartRecord.PathAbs = some (.file [1, 2, 3]) := by
  have h := duplicate_store_idempotent '/' exStorage exParam exHeader exFS
    exMultipartRecord exMultipartFS (by decide)
  exact ⟨h.1, h.2⟩

end Fileupload

